import Mathlib

set_option maxHeartbeats 1000000

/-! Verification of the checkpoint-and-resume recovery layer
(`utils/recovery_utils.py` of the audiobook-creator repository).

The Python module is shallowly embedded: the filesystem is a finite map
from path strings to entries (directories, or files carrying a byte size
and an optional parsed-JSON value standing for what `json.load` would
return), and each Python function becomes a Lean function over that
state.  Python exceptions that the source can raise to its caller are
modelled with `Except`; exceptions the source catches locally are
resolved inside the definitions exactly as the source resolves them. -/

/-- A parsed JSON value, as produced by Python's `json.load`.  Numbers
are modelled as integers; the checkpoint schema only ever stores integer
counts and indices. -/
inductive JsonVal where
  | null
  | bool (b : Bool)
  | num (n : Int)
  | str (s : String)
  | arr (elems : List JsonVal)
  | obj (fields : List (String × JsonVal))

/-- Python truthiness (`bool(v)`) for a parsed JSON value: `None`,
`False`, `0`, `""`, `[]` and `{}` are falsy, everything else truthy. -/
def JsonVal.truthy : JsonVal → Bool
  | .null => false
  | .bool b => b
  | .num n => n != 0
  | .str s => s != ""
  | .arr elems => !elems.isEmpty
  | .obj fields => !fields.isEmpty

/-- Whether the parsed value is a JSON object (a Python `dict`). -/
def JsonVal.isObj : JsonVal → Bool
  | .obj _ => true
  | _ => false

/-- Field lookup on a JSON object, `none` on a missing key or a
non-object. -/
def JsonVal.objLookup : JsonVal → String → Option JsonVal
  | .obj fields, k => fields.lookup k
  | _, _ => none

/-- Exceptions that `can_resume_from_assembly` can let escape to its
caller when the checkpoint parses to data of an unexpected shape. -/
inductive PyErr where
  | attributeError
  | typeError

/-- One directory entry: a directory, or a file with its byte size and
the JSON value it parses to (`none` when `json.load` would fail on it). -/
inductive Entry where
  | dir
  | file (size : Nat) (parsed : Option JsonVal)

/-- The filesystem state: a finite association of path strings to
entries.  Lookups take the first binding for a path. -/
structure FS where
  entries : List (String × Entry)

/-- `os.path.join` for the relative POSIX paths this module builds. -/
def pathJoin (a b : String) : String := a ++ "/" ++ b

/-- `os.path.exists`: true when any entry (file or directory) is bound
at the path. -/
def pathExists (fs : FS) (p : String) : Bool :=
  (fs.entries.lookup p).isSome

/-- `os.path.getsize`.  A directory reports the conventional nonzero
directory-entry size; the source only calls this after a successful
existence check, so the unbound-path value is irrelevant. -/
def getsize (fs : FS) (p : String) : Nat :=
  match fs.entries.lookup p with
  | some (Entry.file size _) => size
  | some Entry.dir => 4096
  | none => 0

/-- Python's `f"{i:06d}"`: decimal digits left-padded with zeros to
width at least six. -/
def pad6 (i : Nat) : String :=
  let s := toString i
  String.mk (List.replicate (6 - s.length) '0') ++ s

/-- The deterministic per-unit artifact name `line_{i:06d}.wav`. -/
def lineFileName (i : Nat) : String := "line_" ++ pad6 i ++ ".wav"

/-- The deterministic per-unit artifact path inside the segment
directory. -/
def linePath (temp_line_audio_dir : String) (i : Nat) : String :=
  pathJoin temp_line_audio_dir (lineFileName i)

/-- The fixed checkpoint location inside the working directory. -/
def checkpointPath (temp_audio_dir : String) : String :=
  pathJoin temp_audio_dir "recovery_checkpoint.json"

/-- One element of the `results` list passed to
`create_recovery_checkpoint`: the fields the source reads from each
result record. -/
structure RMeta where
  index : Int
  line : String
  is_chapter_heading : Bool

/-- The JSON value `create_recovery_checkpoint` serializes for the
`results_metadata` field. -/
def encodeResults (results : List RMeta) : JsonVal :=
  .arr (results.map fun r =>
    .obj [("index", .num r.index), ("line", .str r.line),
          ("is_chapter_heading", .bool r.is_chapter_heading)])

/-- The full JSON value `create_recovery_checkpoint` serializes:
`chapter_line_map`, `chapter_files`, `total_lines = len(results)` and
`results_metadata`. -/
def encodeCheckpoint (chapter_line_map : List (String × List Int))
    (chapter_files : List String) (results : List RMeta) : JsonVal :=
  .obj [("chapter_line_map",
          .obj (chapter_line_map.map fun kv => (kv.1, .arr (kv.2.map JsonVal.num)))),
        ("chapter_files", .arr (chapter_files.map JsonVal.str)),
        ("total_lines", .num results.length),
        ("results_metadata", encodeResults results)]

/-- Binds a file entry at a path, replacing any previous binding
(`open(path, "w")` overwrite semantics). -/
def FS.setFile (fs : FS) (p : String) (e : Entry) : FS :=
  ⟨(p, e) :: fs.entries.filter (fun kv => !(kv.1 == p))⟩

/-- `create_recovery_checkpoint`: writes the serialized checkpoint to
the fixed path inside the working directory.  The written text is
nonempty (modelled size 1) and parses back to exactly the serialized
value. -/
def create_recovery_checkpoint (fs : FS) (temp_audio_dir : String)
    (chapter_line_map : List (String × List Int)) (chapter_files : List String)
    (results : List RMeta) : FS :=
  fs.setFile (checkpointPath temp_audio_dir)
    (.file 1 (some (encodeCheckpoint chapter_line_map chapter_files results)))

/-- `load_recovery_checkpoint`: `None` when the checkpoint path is
unbound (`os.path.exists` fails), when it is a directory
(`IsADirectoryError` is an `IOError` and is caught), or when the file
does not parse (`json.JSONDecodeError` is caught and logged); otherwise
the parsed value.  The `Option` return type records that the source
never lets an exception escape here: both handlers return `None`. -/
def load_recovery_checkpoint (fs : FS) (temp_audio_dir : String) : Option JsonVal :=
  match fs.entries.lookup (checkpointPath temp_audio_dir) with
  | none => none
  | some Entry.dir => none
  | some (Entry.file _ parsed) => parsed

/-- `validate_line_segments`: if the segment directory does not exist,
every index in `range(expected_line_count)` is missing; otherwise an
index is missing when its deterministic path does not exist or has zero
size, collected in ascending order; `all_present` is
`len(missing) == 0`.  Python `range` of a negative count is empty,
hence `Int.toNat`. -/
def validate_line_segments (fs : FS) (temp_line_audio_dir : String)
    (expected_line_count : Int) : Bool × List Nat :=
  if !pathExists fs temp_line_audio_dir then
    (false, List.range expected_line_count.toNat)
  else
    let missing := (List.range expected_line_count.toNat).filter fun i =>
      !pathExists fs (linePath temp_line_audio_dir i)
        || getsize fs (linePath temp_line_audio_dir i) == 0
    (missing.length == 0, missing)

/-- Python `dict.get(key, default)`; on a non-dict value the attribute
access raises `AttributeError`. -/
def jsonGet (v : JsonVal) (k : String) (dflt : JsonVal) : Except PyErr JsonVal :=
  match v with
  | .obj fields => .ok ((fields.lookup k).getD dflt)
  | _ => .error .attributeError

/-- The argument coercion `range` performs on the loaded `total_lines`
value: ints pass through, bools are ints in Python, anything else
raises `TypeError`. -/
def rangeArg : JsonVal → Except PyErr Int
  | .num n => .ok n
  | .bool b => .ok (if b then 1 else 0)
  | _ => .error .typeError

/-- `can_resume_from_assembly`: load the checkpoint; a missing or falsy
checkpoint gives `(False, None)`; otherwise validate
`checkpoint_data.get("total_lines", 0)` segments and return
`(True, checkpoint_data)` exactly when `all_present`, else
`(False, None)`. -/
def can_resume_from_assembly (fs : FS) (temp_audio_dir temp_line_audio_dir : String) :
    Except PyErr (Bool × Option JsonVal) :=
  match load_recovery_checkpoint fs temp_audio_dir with
  | none => .ok (false, none)
  | some checkpoint_data =>
    if !checkpoint_data.truthy then .ok (false, none)
    else
      match jsonGet checkpoint_data "total_lines" (.num 0) with
      | .error e => .error e
      | .ok tl =>
        match rangeArg tl with
        | .error e => .error e
        | .ok expected_lines =>
          let v := validate_line_segments fs temp_line_audio_dir expected_lines
          if v.1 then .ok (true, some checkpoint_data)
          else .ok (false, none)


/-- The suffixes of a string reachable by deleting a (possibly empty)
run of non-`/` characters from the front: the candidate remainders a
`*` wildcard can leave behind. -/
def dropsNoSlash : List Char → List (List Char)
  | [] => [[]]
  | c :: cs => (c :: cs) :: (if c == '/' then [] else dropsNoSlash cs)

/-- Glob matching for the cleaner's fixed patterns: `*` matches any
run of characters within one path component (it does not cross `/`),
every other character matches itself. -/
def globMatch : List Char → List Char → Bool
  | [], s => s.isEmpty
  | '*' :: ps, s => (dropsNoSlash s).any (fun s2 => globMatch ps s2)
  | _ :: _, [] => false
  | p :: ps, c :: cs => p == c && globMatch ps cs

/-- `glob.glob`: the bound paths matching the pattern (files and
directories alike). -/
def globFS (fs : FS) (pattern : String) : List String :=
  (fs.entries.filter (fun kv => globMatch pattern.data kv.1.data)).map (·.1)

/-- `os.remove` under the source's error handling: a bound file is
unbound; a directory raises `OSError`, which both call sites catch, so
the entry stays; an unbound path is never passed (the chapter loop
checks existence first and glob only returns bound paths). -/
def removeFile (fs : FS) (p : String) : FS :=
  match fs.entries.lookup p with
  | some (Entry.file _ _) => ⟨fs.entries.filter (fun kv => !(kv.1 == p))⟩
  | _ => fs

/-- The three transient-artifact glob patterns of
`cleanup_partial_chapters`, joined to the working directory. -/
def tempPatterns (temp_audio_dir : String) : List String :=
  [pathJoin temp_audio_dir "chapter_list_*.txt",
   pathJoin temp_audio_dir "*.temp.wav",
   pathJoin temp_audio_dir "*.concat_list.txt"]

/-- `cleanup_partial_chapters`: best-effort removal of each listed
chapter file from the working directory, then, pattern by pattern,
removal of every current glob match of the transient patterns. -/
def cleanup_partial_chapters (fs : FS) (temp_audio_dir : String)
    (chapter_files : List String) : FS :=
  let fs1 := chapter_files.foldl
    (fun a cf => removeFile a (pathJoin temp_audio_dir cf)) fs
  (tempPatterns temp_audio_dir).foldl
    (fun a pat => (globFS a pat).foldl removeFile a) fs1

/-- Whether the first binding at a path is a file (the only entries
`os.remove` can delete). -/
def isFileAt (fs : FS) (p : String) : Bool :=
  match fs.entries.lookup p with
  | some (Entry.file _ _) => true
  | _ => false

/-- The paths of the listed chapter files inside the working
directory. -/
def chapterPaths (temp_audio_dir : String) (chapter_files : List String) : List String :=
  chapter_files.map (fun cf => pathJoin temp_audio_dir cf)

/-- Whether a path is one the cleaner targets: a listed chapter path,
or a match of one of the transient patterns. -/
def isTarget (temp_audio_dir : String) (chapter_files : List String) (p : String) : Bool :=
  (chapterPaths temp_audio_dir chapter_files).contains p
    || (tempPatterns temp_audio_dir).any (fun pat => globMatch pat.data p.data)

/-- A directory state is clean when no file is bound at any path the
cleaner targets. -/
def cleanDir (fs : FS) (temp_audio_dir : String) (chapter_files : List String) : Bool :=
  fs.entries.all (fun kv => !(isTarget temp_audio_dir chapter_files kv.1 && isFileAt fs kv.1))

/-- The external media operations of
`assembly_and_post_processing_phase`, abstracted by whether each call
succeeds (a `false` stands for the call raising).  The final merge
receives the collected converted filenames. -/
structure MediaOps where
  assembleOk : String → Bool
  silenceOk : String → Bool
  convertOk : String → Bool
  mergeOk : List String → Bool

/-- Outcome of running the phase pipeline: the progress events the
generator yielded, and, on failure, the name of the raising operation
and the group being processed. -/
inductive PipeResult where
  | ok (events : List String)
  | failed (events : List String) (op : String) (group : String)
  deriving DecidableEq

/-- The events a `PipeResult` carries. -/
def PipeResult.events : PipeResult → List String
  | .ok evs => evs
  | .failed evs _ _ => evs

/-- The progress event yielded after assembling one chapter. -/
def assembledMsg (chapter_file : String) : String :=
  "Assembled chapter: " ++ chapter_file

/-- The progress event yielded after padding one chapter with
silence. -/
def silenceMsg (chapter_file : String) : String :=
  "Added silence to chapter: " ++ chapter_file

/-- Python `s.split('.')[0]`: the characters before the first dot (the
whole string when it has no dot). -/
def takeUntilDot : List Char → List Char
  | [] => []
  | c :: cs => if c == '.' then [] else c :: takeUntilDot cs

/-- The converted filename the source computes:
`chapter_file.split('.')[0] + ".m4a"`, i.e. the name truncated at its
first dot with the target extension appended. -/
def m4aName (chapter_file : String) : String :=
  String.mk (takeUntilDot chapter_file.data) ++ ".m4a"

/-- The progress event yielded after converting one chapter. -/
def convertedMsg (chapter_file : String) : String :=
  "Converted to M4A: " ++ m4aName chapter_file

/-- One sequential per-group pass of the pipeline: on the first failing
group it stops with the events yielded so far and the failing
operation/group; otherwise every group's event in order. -/
def groupLoop (okFn : String → Bool) (msg : String → String) (opName : String) :
    List String → List String × Option (String × String)
  | [] => ([], none)
  | g :: gs =>
    if okFn g then
      let r := groupLoop okFn msg opName gs
      (msg g :: r.1, r.2)
    else ([], some (opName, g))

/-- The converting pass: like `groupLoop` but also collecting the
converted filenames in group order. -/
def convertLoop (ops : MediaOps) :
    List String → (List String × List String) × Option (String × String)
  | [] => (([], []), none)
  | cf :: rest =>
    if ops.convertOk cf then
      let r := convertLoop ops rest
      ((m4aName cf :: r.1.1, convertedMsg cf :: r.1.2), r.2)
    else (([], []), some ("convert_chapter_to_m4a_with_ffmpeg", cf))

/-- `assembly_and_post_processing_phase` as the sequence of progress
events it yields: assemble every chapter, add silence to every chapter,
convert every chapter to M4A, then optionally merge into the final M4B.
A failing external call aborts the generator with the events yielded up
to that point. -/
def assembly_and_post_processing_phase (ops : MediaOps) (chapter_files : List String)
    (generate_m4b_audiobook_file : Bool) : PipeResult :=
  match groupLoop ops.assembleOk assembledMsg "assemble_chapter_with_ffmpeg" chapter_files with
  | (e1, some fail1) => .failed e1 fail1.1 fail1.2
  | (e1, none) =>
    match groupLoop ops.silenceOk silenceMsg "add_silence_to_chapter_with_ffmpeg" chapter_files with
    | (e2, some fail2) =>
        .failed (e1 ++ ["Completed assembling all chapters"] ++ e2) fail2.1 fail2.2
    | (e2, none) =>
      match convertLoop ops chapter_files with
      | (r3, some fail3) =>
          .failed (e1 ++ ["Completed assembling all chapters"] ++ e2 ++ r3.2) fail3.1 fail3.2
      | (r3, none) =>
        let evs := e1 ++ ["Completed assembling all chapters"] ++ e2 ++ r3.2
          ++ ["Completed post-processing all chapters"]
        if generate_m4b_audiobook_file then
          if ops.mergeOk r3.1 then
            .ok (evs ++ ["Generating final M4B audiobook file...",
                         "✅ M4B audiobook file generated successfully",
                         "🎉 Audiobook generation completed successfully!"])
          else
            .failed (evs ++ ["Generating final M4B audiobook file..."])
              "generate_m4b_audiobook_with_ffmpeg" "final audiobook"
        else .ok (evs ++ ["🎉 Audiobook generation completed successfully!"])

/-- A media interface whose calls always succeed. -/
def allOkOps : MediaOps :=
  ⟨fun _ => true, fun _ => true, fun _ => true, fun _ => true⟩

/-- The full event sequence of a run in which every external call
succeeds. -/
def successEvents (chapter_files : List String) (generate_m4b : Bool) : List String :=
  chapter_files.map assembledMsg ++ ["Completed assembling all chapters"]
    ++ chapter_files.map silenceMsg ++ chapter_files.map convertedMsg
    ++ ["Completed post-processing all chapters"]
    ++ (if generate_m4b then
          ["Generating final M4B audiobook file...",
           "✅ M4B audiobook file generated successfully",
           "🎉 Audiobook generation completed successfully!"]
        else ["🎉 Audiobook generation completed successfully!"])


/-- Fixture: a checkpoint declaring zero total units while its group
mapping references unit index 0. -/
def ckptZeroTotal : JsonVal :=
  .obj [("chapter_line_map", .obj [("ch1.wav", .arr [.num 0])]),
        ("chapter_files", .arr [.str "ch1.wav"]),
        ("total_lines", .num 0),
        ("results_metadata", .arr [])]

/-- Fixture: working directory holding `ckptZeroTotal`, segment
directory present. -/
def fsZeroTotalWithDir : FS :=
  ⟨[("wd/recovery_checkpoint.json", .file 1 (some ckptZeroTotal)), ("segs", .dir)]⟩

/-- Fixture: a well-formed checkpoint declaring zero total units with
empty mapping. -/
def ckptEmptyTotalZero : JsonVal :=
  .obj [("chapter_line_map", .obj []), ("chapter_files", .arr []),
        ("total_lines", .num 0), ("results_metadata", .arr [])]

/-- Fixture: working directory holding `ckptEmptyTotalZero`, segment
directory absent. -/
def fsNoSegDir : FS :=
  ⟨[("wd/recovery_checkpoint.json", .file 1 (some ckptEmptyTotalZero))]⟩

/-- Fixture: a non-empty checkpoint object lacking the `total_lines`
field. -/
def ckptNoTotal : JsonVal :=
  .obj [("chapter_line_map", .obj [("ch1.wav", .arr [.num 0])]),
        ("chapter_files", .arr [.str "ch1.wav"])]

/-- Fixture: working directory holding `ckptNoTotal`, segment directory
absent. -/
def fsNoTotalNoDir : FS :=
  ⟨[("wd/recovery_checkpoint.json", .file 1 (some ckptNoTotal))]⟩

/-- Fixture: working directory holding `ckptNoTotal`, segment directory
present but with no unit files. -/
def fsNoTotalWithDir : FS :=
  ⟨[("wd/recovery_checkpoint.json", .file 1 (some ckptNoTotal)), ("segs", .dir)]⟩

/-- Fixture: a complete checkpoint declaring one unit. -/
def ckptOne : JsonVal :=
  .obj [("chapter_line_map", .obj [("ch1.wav", .arr [.num 0])]),
        ("chapter_files", .arr [.str "ch1.wav"]),
        ("total_lines", .num 1),
        ("results_metadata",
         .arr [.obj [("index", .num 0), ("line", .str "hello"),
                     ("is_chapter_heading", .bool false)]])]

/-- Fixture: working directory holding `ckptOne` with its single unit
file present and non-empty. -/
def fsComplete : FS :=
  ⟨[("wd/recovery_checkpoint.json", .file 1 (some ckptOne)), ("segs", .dir),
    ("segs/line_000000.wav", .file 5 none)]⟩

/-- Fixture: a checkpoint file that exists but does not parse. -/
def fsCorrupt : FS := ⟨[("wd/recovery_checkpoint.json", .file 7 none)]⟩

/-- Fixture: a checkpoint file parsing to the empty JSON object. -/
def fsFalsy : FS := ⟨[("wd/recovery_checkpoint.json", .file 2 (some (.obj [])))]⟩

/-- Fixture: a segment directory with unit 0 present and non-empty,
unit 1 present but empty, unit 2 absent. -/
def fsSegs : FS :=
  ⟨[("segs", .dir), ("segs/line_000000.wav", .file 5 none),
    ("segs/line_000001.wav", .file 0 none)]⟩

/-- Helper: evaluation of `can_resume_from_assembly` once a truthy
checkpoint with an integer-valued (possibly defaulted) `total_lines`
has been loaded. -/
theorem can_resume_eval (fs : FS) (wd ud : String) (cd : JsonVal) (n : Int)
    (hload : load_recovery_checkpoint fs wd = some cd)
    (htruthy : cd.truthy = true)
    (hget : jsonGet cd "total_lines" (.num 0) = .ok (.num n)) :
    can_resume_from_assembly fs wd ud =
      (if (validate_line_segments fs ud n).1 then .ok (true, some cd)
       else .ok (false, none)) := by
  unfold can_resume_from_assembly
  rw [hload]
  simp only [htruthy, Bool.not_true, Bool.false_eq_true, if_false]
  rw [hget]
  simp [rangeArg]

/-- C6: `load_recovery_checkpoint` returns `none` when the checkpoint
file does not exist, and when the file exists but cannot be parsed as
structured data it likewise returns `none`; its total `Option`-valued
type records that it returns to the caller in every case instead of
raising. -/
theorem load_checkpoint_absent_or_corrupt (fs : FS) (temp_audio_dir : String) :
    (fs.entries.lookup (checkpointPath temp_audio_dir) = none →
       load_recovery_checkpoint fs temp_audio_dir = none) ∧
    (∀ size, fs.entries.lookup (checkpointPath temp_audio_dir) = some (.file size none) →
       load_recovery_checkpoint fs temp_audio_dir = none) := by
  constructor
  · intro h; simp [load_recovery_checkpoint, h]
  · intro size h; simp [load_recovery_checkpoint, h]

/-- Witness for C6 at a missing file and at a corrupt file. -/
theorem load_checkpoint_absent_or_corrupt_witness :
    load_recovery_checkpoint fsCorrupt "wd" = none ∧
    load_recovery_checkpoint ⟨[]⟩ "wd" = none :=
  ⟨(load_checkpoint_absent_or_corrupt fsCorrupt "wd").2 7 rfl,
   (load_checkpoint_absent_or_corrupt ⟨[]⟩ "wd").1 rfl⟩

/-- C9: a checkpoint file that exists and parses to a falsy value
(such as the empty object `{}`) is treated identically to an absent
checkpoint: `can_resume_from_assembly` returns `(False, None)`. -/
theorem can_resume_falsy_checkpoint (fs : FS) (wd ud : String) (cd : JsonVal)
    (hload : load_recovery_checkpoint fs wd = some cd)
    (hfalsy : cd.truthy = false) :
    can_resume_from_assembly fs wd ud = .ok (false, none) := by
  unfold can_resume_from_assembly
  rw [hload]
  simp [hfalsy]

/-- Witness for C9 at a checkpoint file containing `{}`. -/
theorem can_resume_falsy_checkpoint_witness :
    can_resume_from_assembly fsFalsy "wd" "segs" = .ok (false, none) :=
  can_resume_falsy_checkpoint fsFalsy "wd" "segs" (.obj []) rfl rfl

/-- C4: writing a checkpoint with `create_recovery_checkpoint` and
reading it back with `load_recovery_checkpoint` from the same directory
yields exactly the serialized checkpoint, whose modeled fields
(`chapter_line_map`, `chapter_files`, `total_lines`,
`results_metadata`) are the data written, with `total_lines` equal to
the length of the results list. -/
theorem checkpoint_round_trip (fs : FS) (wd : String)
    (chapter_line_map : List (String × List Int)) (chapter_files : List String)
    (results : List RMeta) :
    load_recovery_checkpoint
        (create_recovery_checkpoint fs wd chapter_line_map chapter_files results) wd
      = some (encodeCheckpoint chapter_line_map chapter_files results) ∧
    (encodeCheckpoint chapter_line_map chapter_files results).objLookup "chapter_line_map"
      = some (.obj (chapter_line_map.map fun kv => (kv.1, .arr (kv.2.map JsonVal.num)))) ∧
    (encodeCheckpoint chapter_line_map chapter_files results).objLookup "chapter_files"
      = some (.arr (chapter_files.map JsonVal.str)) ∧
    (encodeCheckpoint chapter_line_map chapter_files results).objLookup "total_lines"
      = some (.num results.length) ∧
    (encodeCheckpoint chapter_line_map chapter_files results).objLookup "results_metadata"
      = some (encodeResults results) := by
  refine ⟨?_, rfl, rfl, rfl, rfl⟩
  simp [load_recovery_checkpoint, create_recovery_checkpoint, FS.setFile, List.lookup]

/-- C1 counterexample: a loadable, well-formed checkpoint declaring
zero total units, with the unit directory absent.  Validation reports
zero missing indices, yet `can_resume_from_assembly` refuses to resume,
so "resumable = true iff zero missing indices" fails as stated. -/
theorem can_resume_zero_missing_but_refused :
    load_recovery_checkpoint fsNoSegDir "wd" = some ckptEmptyTotalZero ∧
    (validate_line_segments fsNoSegDir "segs" 0).2 = [] ∧
    can_resume_from_assembly fsNoSegDir "wd" "segs" = .ok (false, none) ∧
    can_resume_from_assembly fsNoSegDir "wd" "segs" ≠ .ok (true, some ckptEmptyTotalZero) := by
  refine ⟨rfl, rfl, rfl, ?_⟩
  intro h
  rw [show can_resume_from_assembly fsNoSegDir "wd" "segs" = .ok (false, none) from rfl] at h
  simp at h

/-- C1 (amended): `can_resume_from_assembly` returns `(false, none)`
when no checkpoint can be loaded; otherwise, for a truthy checkpoint
object whose declared total (defaulted to 0) is an integer, it returns
`(true, checkpoint)` iff the validator's `all_present` flag is true,
and `(false, none)` otherwise.  (`all_present` is not equivalent to
"zero missing indices": a missing unit directory with declared total 0
reports no missing indices yet clears `all_present`.) -/
theorem can_resume_spec (fs : FS) (wd ud : String) :
    (load_recovery_checkpoint fs wd = none →
       can_resume_from_assembly fs wd ud = .ok (false, none)) ∧
    (∀ cd n, load_recovery_checkpoint fs wd = some cd →
       cd.truthy = true →
       jsonGet cd "total_lines" (.num 0) = .ok (.num n) →
       (can_resume_from_assembly fs wd ud = .ok (true, some cd) ↔
          (validate_line_segments fs ud n).1 = true) ∧
       ((validate_line_segments fs ud n).1 = false →
          can_resume_from_assembly fs wd ud = .ok (false, none))) := by
  constructor
  · intro h
    unfold can_resume_from_assembly
    rw [h]
  · intro cd n hload htruthy hget
    rw [can_resume_eval fs wd ud cd n hload htruthy hget]
    cases hv : (validate_line_segments fs ud n).1 <;> simp [hv]

/-- Witness for C1 at a complete one-unit checkpoint (resume accepted)
and at an empty working directory (no checkpoint, resume refused). -/
theorem can_resume_spec_witness :
    can_resume_from_assembly fsComplete "wd" "segs" = .ok (true, some ckptOne) ∧
    can_resume_from_assembly ⟨[]⟩ "wd" "segs" = .ok (false, none) :=
  ⟨((can_resume_spec fsComplete "wd" "segs").2 ckptOne 1 rfl rfl rfl).1.mpr rfl,
   (can_resume_spec ⟨[]⟩ "wd" "segs").1 rfl⟩

/-- C3 counterexample: a checkpoint declaring zero total units whose
group mapping references unit 0, with the segment directory present.
`validate` reports `all_present = true` (the range `[0, 0)` is empty,
so nothing is checked) and the checkpoint is accepted, not refused. -/
theorem zero_total_checkpoint_accepted :
    load_recovery_checkpoint fsZeroTotalWithDir "wd" = some ckptZeroTotal ∧
    validate_line_segments fsZeroTotalWithDir "segs" 0 = (true, []) ∧
    can_resume_from_assembly fsZeroTotalWithDir "wd" "segs" = .ok (true, some ckptZeroTotal) ∧
    (validate_line_segments fsZeroTotalWithDir "segs" 0).1 ≠ false := by
  exact ⟨rfl, rfl, rfl, by decide⟩

/-- C3 (amended): a checkpoint whose declared total unit count is zero
is accepted, not refused, whatever its group mapping references: with
the unit directory present the validator checks the empty index range
`[0, 0)` and reports `all_present = true` with no missing indices, and
`can_resume_from_assembly` resumes with that checkpoint.  (Only a
missing unit directory makes validation fail for a zero total.) -/
theorem zero_total_validates (fs : FS) (ud : String) (hdir : pathExists fs ud = true) :
    validate_line_segments fs ud 0 = (true, []) ∧
    (∀ wd cd, load_recovery_checkpoint fs wd = some cd →
       cd.truthy = true →
       jsonGet cd "total_lines" (.num 0) = .ok (.num 0) →
       can_resume_from_assembly fs wd ud = .ok (true, some cd)) := by
  have hval : validate_line_segments fs ud 0 = (true, []) := by
    simp [validate_line_segments, hdir]
  refine ⟨hval, ?_⟩
  intro wd cd hload htruthy hget
  rw [can_resume_eval fs wd ud cd 0 hload htruthy hget, hval]
  simp

/-- Witness for C3 at the zero-total checkpoint with mapping
referencing unit 0 and the segment directory present. -/
theorem zero_total_validates_witness :
    validate_line_segments fsZeroTotalWithDir "segs" 0 = (true, []) ∧
    can_resume_from_assembly fsZeroTotalWithDir "wd" "segs" = .ok (true, some ckptZeroTotal) :=
  ⟨(zero_total_validates fsZeroTotalWithDir "segs" rfl).1,
   (zero_total_validates fsZeroTotalWithDir "segs" rfl).2 "wd" ckptZeroTotal rfl rfl rfl⟩

/-- C10 counterexample: a parsed, non-empty checkpoint lacking
`total_lines`, with the unit segment directory absent.  The defaulted
expected count 0 still fails validation (`all_present = false` for a
missing directory), so resume is refused, contradicting the claimed
unconditional `resumable = true`. -/
theorem missing_total_refused_without_dir :
    load_recovery_checkpoint fsNoTotalNoDir "wd" = some ckptNoTotal ∧
    ckptNoTotal.truthy = true ∧
    ckptNoTotal.objLookup "total_lines" = none ∧
    can_resume_from_assembly fsNoTotalNoDir "wd" "segs" = .ok (false, none) ∧
    can_resume_from_assembly fsNoTotalNoDir "wd" "segs" ≠ .ok (true, some ckptNoTotal) := by
  refine ⟨rfl, rfl, rfl, rfl, ?_⟩
  intro h
  rw [show can_resume_from_assembly fsNoTotalNoDir "wd" "segs" = .ok (false, none) from rfl] at h
  simp at h

/-- C10 (amended): a parsed, non-empty checkpoint object lacking the
`total_lines` field defaults the expected count to zero, so whenever
the unit segment directory exists, validation trivially reports no
missing indices and `can_resume_from_assembly` returns
`(true, checkpoint)` regardless of which unit files exist on disk or
which indices the group mapping references; when the directory does
not exist, resume is refused. -/
theorem missing_total_resumes_with_dir (fs : FS) (wd ud : String)
    (fields : List (String × JsonVal))
    (hne : fields.isEmpty = false)
    (hmiss : fields.lookup "total_lines" = none)
    (hload : load_recovery_checkpoint fs wd = some (.obj fields))
    (hdir : pathExists fs ud = true) :
    can_resume_from_assembly fs wd ud = .ok (true, some (.obj fields)) := by
  have htruthy : (JsonVal.obj fields).truthy = true := by
    simp [JsonVal.truthy, hne]
  have hget : jsonGet (.obj fields) "total_lines" (.num 0) = .ok (.num 0) := by
    simp [jsonGet, hmiss]
  rw [can_resume_eval fs wd ud (.obj fields) 0 hload htruthy hget]
  simp [validate_line_segments, hdir]

/-- Witness for C10 at `ckptNoTotal` with the segment directory present
and no unit files on disk. -/
theorem missing_total_resumes_with_dir_witness :
    can_resume_from_assembly fsNoTotalWithDir "wd" "segs" = .ok (true, some ckptNoTotal) :=
  missing_total_resumes_with_dir fsNoTotalWithDir "wd" "segs"
    [("chapter_line_map", .obj [("ch1.wav", .arr [.num 0])]),
     ("chapter_files", .arr [.str "ch1.wav"])] rfl rfl rfl rfl

/-- C2 counterexample: with the unit directory absent and expected
count 0, `validate_line_segments` returns an empty missing sequence
together with `allPresent = false`, refuting the claimed "allPresent is
true iff the missing sequence is empty". -/
theorem validate_empty_missing_not_all_present :
    validate_line_segments ⟨[]⟩ "segs" 0 = (false, []) ∧
    ¬ ((validate_line_segments ⟨[]⟩ "segs" 0).1 = true ↔
       (validate_line_segments ⟨[]⟩ "segs" 0).2 = []) := by
  refine ⟨rfl, ?_⟩
  rw [show validate_line_segments ⟨[]⟩ "segs" 0 = (false, []) from rfl]
  simp

/-- C2 (amended): when the unit directory exists, an index `i` in
`[0, N)` is reported missing exactly when `line_{i:06d}.wav` does not
exist or has zero size, the missing sequence is strictly ascending, and
`allPresent` is true iff it is empty; when the unit directory does not
exist, every index in `[0, N)` is reported missing with
`allPresent = false` — including `N = 0`, where the missing sequence is
empty yet `allPresent` is still false, which is the one point the
original iff clause must except. -/
theorem validate_spec (fs : FS) (dir : String) (N : Nat) :
    (pathExists fs dir = true →
       (∀ i, i ∈ (validate_line_segments fs dir (N : Int)).2 ↔
          (i < N ∧ (pathExists fs (linePath dir i) = false ∨
                    getsize fs (linePath dir i) = 0))) ∧
       ((validate_line_segments fs dir (N : Int)).1 = true ↔
          (validate_line_segments fs dir (N : Int)).2 = []) ∧
       List.Pairwise (· < ·) (validate_line_segments fs dir (N : Int)).2) ∧
    (pathExists fs dir = false →
       validate_line_segments fs dir (N : Int) = (false, List.range N)) := by
  constructor
  · intro hdir
    unfold validate_line_segments
    rw [hdir]
    simp only [Bool.not_true, Bool.false_eq_true, if_false, Int.toNat_natCast]
    refine ⟨?_, ?_, ?_⟩
    · intro i
      rw [List.mem_filter, List.mem_range]
      simp [Bool.or_eq_true, Bool.not_eq_true', beq_iff_eq]
    · rw [Nat.beq_eq_true_eq, List.length_eq_zero]
    · exact (List.pairwise_lt_range N).sublist (List.filter_sublist _)
  · intro hdir
    unfold validate_line_segments
    rw [hdir]
    simp [Int.toNat_natCast]

/-- Witness for C2: a directory with unit 0 present non-empty, unit 1
empty, unit 2 absent, expected count 3; and a dir-absent run. -/
theorem validate_spec_witness :
    (1 ∈ (validate_line_segments fsSegs "segs" (3 : Nat)).2 ↔
       (1 < 3 ∧ (pathExists fsSegs (linePath "segs" 1) = false ∨
                 getsize fsSegs (linePath "segs" 1) = 0))) ∧
    validate_line_segments ⟨[]⟩ "segs" (2 : Nat) = (false, List.range 2) :=
  ⟨((validate_spec fsSegs "segs" 3).1 rfl).1 1,
   (validate_spec ⟨[]⟩ "segs" 2).2 rfl⟩

/-- Helper: a per-group pass whose calls all succeed emits one event
per group, in group order, and reports no failure. -/
theorem groupLoop_all_ok (okFn : String → Bool) (msg : String → String) (opName : String)
    (gs : List String) (h : ∀ g ∈ gs, okFn g = true) :
    groupLoop okFn msg opName gs = (gs.map msg, none) := by
  induction gs with
  | nil => rfl
  | cons g gs ih =>
    have hg : okFn g = true := h g (List.mem_cons_self g gs)
    simp [groupLoop, hg, ih (fun x hx => h x (List.mem_cons_of_mem g hx))]

/-- Helper: a per-group pass reporting no failure emitted every group's
event in order. -/
theorem groupLoop_none (okFn : String → Bool) (msg : String → String) (opName : String)
    (gs : List String) (evs : List String)
    (h : groupLoop okFn msg opName gs = (evs, none)) : evs = gs.map msg := by
  induction gs generalizing evs with
  | nil => simpa [groupLoop] using h.symm
  | cons g gs ih =>
    by_cases hok : okFn g = true
    · simp only [groupLoop, hok, if_true] at h
      obtain ⟨h1, h2⟩ := Prod.mk.injEq _ _ _ _ ▸ h
      have hgs : groupLoop okFn msg opName gs = ((groupLoop okFn msg opName gs).1, none) := by
        rw [← h2]
      rw [← h1, ih _ hgs, List.map_cons]
    · simp [groupLoop, hok] at h
  
/-- Helper: the events a per-group pass has emitted are always an
initial segment of the all-success event sequence of that pass. -/
theorem groupLoop_fst_initial (okFn : String → Bool) (msg : String → String) (opName : String)
    (gs : List String) :
    ∃ t, (groupLoop okFn msg opName gs).1 ++ t = gs.map msg := by
  induction gs with
  | nil => exact ⟨[], rfl⟩
  | cons g gs ih =>
    by_cases hok : okFn g = true
    · obtain ⟨t, ht⟩ := ih
      exact ⟨t, by simp [groupLoop, hok, ht]⟩
    · exact ⟨(g :: gs).map msg, by simp [groupLoop, hok]⟩

/-- Helper: a converting pass whose calls all succeed collects the
converted names and emits the events, both in group order. -/
theorem convertLoop_all_ok (ops : MediaOps) (cfs : List String)
    (h : ∀ cf ∈ cfs, ops.convertOk cf = true) :
    convertLoop ops cfs = ((cfs.map m4aName, cfs.map convertedMsg), none) := by
  induction cfs with
  | nil => rfl
  | cons cf cfs ih =>
    have hc : ops.convertOk cf = true := h cf (List.mem_cons_self cf cfs)
    simp [convertLoop, hc, ih (fun x hx => h x (List.mem_cons_of_mem cf hx))]

/-- Helper: a converting pass reporting no failure emitted every
group's event in order. -/
theorem convertLoop_none (ops : MediaOps) (cfs : List String)
    (r : List String × List String) (h : convertLoop ops cfs = (r, none)) :
    r.2 = cfs.map convertedMsg := by
  induction cfs generalizing r with
  | nil =>
    rw [show r = ([], []) from (Prod.mk.injEq _ _ _ _ ▸ h.symm).1]
    rfl
  | cons cf cfs ih =>
    by_cases hok : ops.convertOk cf = true
    · simp only [convertLoop, hok, if_true] at h
      obtain ⟨h1, h2⟩ := Prod.mk.injEq _ _ _ _ ▸ h
      have hcfs : convertLoop ops cfs = ((convertLoop ops cfs).1, none) := by
        rw [← h2]
      have := ih (convertLoop ops cfs).1 hcfs
      rw [← h1]
      simp [this]
    · simp [convertLoop, hok] at h

/-- Helper: the events the converting pass has emitted are always an
initial segment of its all-success event sequence. -/
theorem convertLoop_snd_initial (ops : MediaOps) (cfs : List String) :
    ∃ t, (convertLoop ops cfs).1.2 ++ t = cfs.map convertedMsg := by
  induction cfs with
  | nil => exact ⟨[], rfl⟩
  | cons cf cfs ih =>
    by_cases hok : ops.convertOk cf = true
    · obtain ⟨t, ht⟩ := ih
      exact ⟨t, by simp [convertLoop, hok, ht]⟩
    · exact ⟨(cf :: cfs).map convertedMsg, by simp [convertLoop, hok]⟩

/-- C7: a failing external media call aborts the pipeline at once with
exactly the events already emitted — always an initial segment of the
all-success event sequence, so events for groups completed before the
failure (in that and earlier states) are present and nothing is emitted
for the failing group's operation or any later group or state — and in
particular a silence failure on the second group during post-processing
leaves exactly every group's assembling event, the assembling-phase
completion event, and the first group's post-processing event. -/
theorem pipeline_abort_spec :
    (∀ (ops : MediaOps) (gs : List String) (m4b : Bool) (evs : List String) (op g : String),
       assembly_and_post_processing_phase ops gs m4b = .failed evs op g →
       ∃ t, evs ++ t = successEvents gs m4b) ∧
    (∀ (ops : MediaOps) (g1 g2 : String) (rest : List String) (m4b : Bool),
       (∀ g ∈ g1 :: g2 :: rest, ops.assembleOk g = true) →
       ops.silenceOk g1 = true → ops.silenceOk g2 = false →
       assembly_and_post_processing_phase ops (g1 :: g2 :: rest) m4b =
         .failed ((g1 :: g2 :: rest).map assembledMsg ++
             ["Completed assembling all chapters", silenceMsg g1])
           "add_silence_to_chapter_with_ffmpeg" g2) := by
  constructor
  · intro ops gs m4b evs op g h
    unfold assembly_and_post_processing_phase at h
    split at h
    · rename_i e1 fail1 heq1
      obtain ⟨t1, ht1⟩ := groupLoop_fst_initial ops.assembleOk assembledMsg
        "assemble_chapter_with_ffmpeg" gs
      rw [heq1] at ht1
      injection h with hevs hop hg
      refine ⟨t1 ++ (["Completed assembling all chapters"] ++ gs.map silenceMsg
        ++ gs.map convertedMsg ++ ["Completed post-processing all chapters"]
        ++ (if m4b then
              ["Generating final M4B audiobook file...",
               "✅ M4B audiobook file generated successfully",
               "🎉 Audiobook generation completed successfully!"]
            else ["🎉 Audiobook generation completed successfully!"])), ?_⟩
      simp only [successEvents, ← hevs, ← ht1]
      simp [List.append_assoc]
    · rename_i e1 heq1
      have he1 : e1 = gs.map assembledMsg :=
        groupLoop_none ops.assembleOk assembledMsg "assemble_chapter_with_ffmpeg" gs e1 heq1
      split at h
      · rename_i e2 fail2 heq2
        obtain ⟨t2, ht2⟩ := groupLoop_fst_initial ops.silenceOk silenceMsg
          "add_silence_to_chapter_with_ffmpeg" gs
        rw [heq2] at ht2
        injection h with hevs hop hg
        refine ⟨t2 ++ (gs.map convertedMsg ++ ["Completed post-processing all chapters"]
          ++ (if m4b then
                ["Generating final M4B audiobook file...",
                 "✅ M4B audiobook file generated successfully",
                 "🎉 Audiobook generation completed successfully!"]
              else ["🎉 Audiobook generation completed successfully!"])), ?_⟩
        simp only [successEvents, ← hevs, he1, ← ht2]
        simp [List.append_assoc]
      · rename_i e2 heq2
        have he2 : e2 = gs.map silenceMsg :=
          groupLoop_none ops.silenceOk silenceMsg "add_silence_to_chapter_with_ffmpeg" gs e2 heq2
        split at h
        · rename_i r3 fail3 heq3
          obtain ⟨t3, ht3⟩ := convertLoop_snd_initial ops gs
          rw [heq3] at ht3
          injection h with hevs hop hg
          refine ⟨t3 ++ (["Completed post-processing all chapters"]
            ++ (if m4b then
                  ["Generating final M4B audiobook file...",
                   "✅ M4B audiobook file generated successfully",
                   "🎉 Audiobook generation completed successfully!"]
                else ["🎉 Audiobook generation completed successfully!"])), ?_⟩
          simp only [successEvents, ← hevs, he1, he2, ← ht3]
          simp [List.append_assoc]
        · rename_i r3 heq3
          have he3 : r3.2 = gs.map convertedMsg := convertLoop_none ops gs r3 heq3
          split at h
          · split at h
            · simp at h
            · injection h with hevs hop hg
              rename_i hm4b hmerge
              refine ⟨["✅ M4B audiobook file generated successfully",
                       "🎉 Audiobook generation completed successfully!"], ?_⟩
              simp only [successEvents, ← hevs, he1, he2, he3, hm4b, if_true]
              simp [List.append_assoc]
          · simp at h
  · intro ops g1 g2 rest m4b hasm h1 h2
    have ha := groupLoop_all_ok ops.assembleOk assembledMsg "assemble_chapter_with_ffmpeg"
      (g1 :: g2 :: rest) hasm
    have hs : groupLoop ops.silenceOk silenceMsg "add_silence_to_chapter_with_ffmpeg"
        (g1 :: g2 :: rest)
        = ([silenceMsg g1], some ("add_silence_to_chapter_with_ffmpeg", g2)) := by
      simp [groupLoop, h1, h2]
    unfold assembly_and_post_processing_phase
    rw [ha, hs]
    simp

/-- Fixture: a media interface whose silence call fails on `b.wav` and
whose other calls succeed. -/
def opsSilenceFailB : MediaOps :=
  ⟨fun _ => true, fun g => !(g == "b.wav"), fun _ => true, fun _ => true⟩

/-- Witness for C7: silence fails on the second of two groups; the run
aborts with exactly both assembling events, the assembling completion
event, and the first group's silence event. -/
theorem pipeline_abort_spec_witness :
    assembly_and_post_processing_phase opsSilenceFailB ["a.wav", "b.wav"] false =
      .failed ["Assembled chapter: a.wav", "Assembled chapter: b.wav",
               "Completed assembling all chapters", "Added silence to chapter: a.wav"]
        "add_silence_to_chapter_with_ffmpeg" "b.wav" := by
  rw [pipeline_abort_spec.2 opsSilenceFailB "a.wav" "b.wav" [] false (by decide) rfl rfl]
  decide

/-- Follows the spec's words, for comparison with the source's
`m4aName`: "a sibling file whose base name is the Group's identifier
with its extension replaced by the target-format extension" — the part
from the LAST dot replaced by `.m4a` (unchanged when there is no
dot). -/
def m4aNameSpec (chapter_file : String) : String :=
  (if chapter_file.data.contains '.' then
     String.mk (((chapter_file.data.reverse.dropWhile (fun c => !(c == '.'))).drop 1).reverse)
   else chapter_file) ++ ".m4a"

/-- C8 counterexample: on a group identifier containing more than one
dot the source truncates at the FIRST dot, which is not extension
replacement: `archive.1.wav` converts to `archive.m4a`, not
`archive.1.m4a`. -/
theorem convert_name_first_dot :
    (convertLoop allOkOps ["archive.1.wav"]).1.1 = ["archive.m4a"] ∧
    m4aNameSpec "archive.1.wav" = "archive.1.m4a" ∧
    (convertLoop allOkOps ["archive.1.wav"]).1.1 ≠ [m4aNameSpec "archive.1.wav"] := by
  refine ⟨rfl, rfl, ?_⟩
  decide

/-- C8 (amended): in the converting state each group's output name is
the group identifier truncated at its first dot with `.m4a` appended
(for identifiers with a single dot this coincides with replacing the
extension), and the converted filenames and per-group progress events
are collected in group order. -/
theorem converting_collects (ops : MediaOps) (cfs : List String)
    (h : ∀ cf ∈ cfs, ops.convertOk cf = true) :
    convertLoop ops cfs = ((cfs.map m4aName, cfs.map convertedMsg), none) :=
  convertLoop_all_ok ops cfs h

/-- Witness for C8 on two concrete group files. -/
theorem converting_collects_witness :
    convertLoop allOkOps ["a.wav", "chapter.2.wav"] =
      ((["a.m4a", "chapter.m4a"],
        ["Converted to M4A: a.m4a", "Converted to M4A: chapter.m4a"]), none) := by
  rw [converting_collects allOkOps ["a.wav", "chapter.2.wav"] (by decide)]
  decide

/-- Helper: lookup of the key just bound at the head. -/
theorem lookup_cons_self (l : List (String × Entry)) (k : String) (v : Entry) :
    ((k, v) :: l).lookup k = some v := by
  simp [List.lookup]

/-- Helper: lookup skips a head binding with a different key. -/
theorem lookup_cons_ne (l : List (String × Entry)) (k q : String) (v : Entry)
    (h : q ≠ k) : ((k, v) :: l).lookup q = l.lookup q := by
  have hb : (q == k) = false := beq_eq_false_iff_ne.mpr h
  simp [List.lookup, hb]

/-- Helper: filtering out the bindings at `p` leaves lookups at other
paths unchanged. -/
theorem lookup_filter_ne (l : List (String × Entry)) (p q : String) (hne : q ≠ p) :
    (l.filter (fun kv => !(kv.1 == p))).lookup q = l.lookup q := by
  induction l with
  | nil => rfl
  | cons kv l ih =>
    obtain ⟨k, v⟩ := kv
    by_cases hk : k = p
    · subst hk
      simp only [List.filter_cons, beq_self_eq_true, Bool.not_true, Bool.false_eq_true,
        if_false]
      rw [ih, lookup_cons_ne l k q v hne]
    · have hcond : (!((k, v).1 == p)) = true := by
        simp [beq_eq_false_iff_ne.mpr hk]
      simp only [List.filter_cons, hcond, if_true]
      by_cases hq : q = k
      · subst hq
        rw [lookup_cons_self, lookup_cons_self]
      · rw [lookup_cons_ne _ k q v hq, lookup_cons_ne l k q v hq, ih]

/-- Helper: filtering out the bindings at `p` makes lookup at `p`
fail. -/
theorem lookup_filter_self (l : List (String × Entry)) (p : String) :
    (l.filter (fun kv => !(kv.1 == p))).lookup p = none := by
  induction l with
  | nil => rfl
  | cons kv l ih =>
    obtain ⟨k, v⟩ := kv
    by_cases hk : k = p
    · subst hk
      simp only [List.filter_cons, beq_self_eq_true, Bool.not_true, Bool.false_eq_true,
        if_false]
      exact ih
    · have hcond : (!((k, v).1 == p)) = true := by
        simp [beq_eq_false_iff_ne.mpr hk]
      simp only [List.filter_cons, hcond, if_true]
      rw [lookup_cons_ne _ k p v (fun h => hk h.symm)]
      exact ih

/-- Helper: removing one path leaves lookups at other paths
unchanged. -/
theorem removeFile_lookup_ne (fs : FS) (p q : String) (hne : q ≠ p) :
    (removeFile fs p).entries.lookup q = fs.entries.lookup q := by
  unfold removeFile
  cases h : fs.entries.lookup p with
  | none => rfl
  | some e =>
    cases e with
    | dir => rfl
    | file size parsed => exact lookup_filter_ne fs.entries p q hne

/-- Helper: a file is bound at a path exactly when lookup finds a file
entry. -/
theorem isFileAt_eq_true_iff (fs : FS) (p : String) :
    isFileAt fs p = true ↔
      ∃ size parsed, fs.entries.lookup p = some (.file size parsed) := by
  unfold isFileAt
  cases h : fs.entries.lookup p with
  | none => simp
  | some e =>
    cases e with
    | dir => simp
    | file size parsed => simp

/-- Helper: after removing a path, no file is bound there. -/
theorem isFileAt_removeFile_self (fs : FS) (p : String) :
    isFileAt (removeFile fs p) p = false := by
  unfold removeFile
  cases h : fs.entries.lookup p with
  | none => simp [isFileAt, h]
  | some e =>
    cases e with
    | dir => simp [isFileAt, h]
    | file size parsed => simp [isFileAt, lookup_filter_self]

/-- Helper: a removal never binds a file at a path that had none. -/
theorem isFileAt_removeFile_of_false (fs : FS) (p q : String)
    (h : isFileAt fs p = false) : isFileAt (removeFile fs q) p = false := by
  by_cases hpq : p = q
  · subst hpq; exact isFileAt_removeFile_self fs p
  · unfold isFileAt at h ⊢
    rw [removeFile_lookup_ne fs q p hpq]
    exact h

/-- Helper: removing a path with no file bound is a no-op (the
directory case is the caught `OSError`). -/
theorem removeFile_of_not_file (fs : FS) (p : String) (h : isFileAt fs p = false) :
    removeFile fs p = fs := by
  unfold removeFile
  cases hl : fs.entries.lookup p with
  | none => rfl
  | some e =>
    cases e with
    | dir => rfl
    | file size parsed =>
      have htrue := (isFileAt_eq_true_iff fs p).mpr ⟨size, parsed, hl⟩
      rw [h] at htrue
      simp at htrue

/-- Helper: a sequence of removals never binds a file at a path that
had none. -/
theorem isFileAt_foldl_remove_of_false (ps : List String) (fs : FS) (p : String)
    (h : isFileAt fs p = false) :
    isFileAt (ps.foldl removeFile fs) p = false := by
  induction ps generalizing fs with
  | nil => exact h
  | cons q ps ih => exact ih (removeFile fs q) (isFileAt_removeFile_of_false fs p q h)

/-- Helper: after removing every path of a list, no file is bound at
any of them. -/
theorem isFileAt_foldl_remove_mem (ps : List String) :
    ∀ (fs : FS) (p : String), p ∈ ps → isFileAt (ps.foldl removeFile fs) p = false := by
  induction ps with
  | nil => intro fs p hmem; cases hmem
  | cons q ps ih =>
    intro fs p hmem
    rcases List.mem_cons.mp hmem with hpq | hp
    · subst hpq
      exact isFileAt_foldl_remove_of_false ps (removeFile fs p) p
        (isFileAt_removeFile_self fs p)
    · exact ih (removeFile fs q) p hp

/-- Helper: a sequence of removals of paths with no files bound is a
no-op. -/
theorem foldl_remove_noop (ps : List String) :
    ∀ (fs : FS), (∀ p ∈ ps, isFileAt fs p = false) → ps.foldl removeFile fs = fs := by
  induction ps with
  | nil => intro fs _; rfl
  | cons q ps ih =>
    intro fs h
    rw [List.foldl_cons, removeFile_of_not_file fs q (h q (List.mem_cons_self q ps))]
    exact ih fs (fun p hp => h p (List.mem_cons_of_mem q hp))

/-- Helper: a successful lookup comes from a binding in the list. -/
theorem mem_of_lookup_eq_some (l : List (String × Entry)) (p : String) (e : Entry)
    (h : l.lookup p = some e) : (p, e) ∈ l := by
  induction l with
  | nil => cases h
  | cons kv l ih =>
    obtain ⟨k, v⟩ := kv
    by_cases hk : p = k
    · subst hk
      rw [lookup_cons_self] at h
      obtain rfl : v = e := by injection h
      exact List.mem_cons_self _ _
    · rw [lookup_cons_ne l k p v hk] at h
      exact List.mem_cons_of_mem _ (ih h)

/-- Helper: after one glob pass, no file is bound at any path matching
that pattern. -/
theorem isFileAt_globPass_clears (a : FS) (pat p : String)
    (hmatch : globMatch pat.data p.data = true) :
    isFileAt ((globFS a pat).foldl removeFile a) p = false := by
  cases hfa : isFileAt a p with
  | false => exact isFileAt_foldl_remove_of_false _ a p hfa
  | true =>
    obtain ⟨size, parsed, hl⟩ := (isFileAt_eq_true_iff a p).mp hfa
    have hmem : p ∈ globFS a pat := by
      unfold globFS
      exact List.mem_map.mpr ⟨(p, Entry.file size parsed),
        List.mem_filter.mpr ⟨mem_of_lookup_eq_some _ _ _ hl, hmatch⟩, rfl⟩
    exact isFileAt_foldl_remove_mem (globFS a pat) a p hmem

/-- Helper: the pattern folds never bind a file at a path that had
none. -/
theorem isFileAt_patterns_of_false (pats : List String) :
    ∀ (a : FS) (p : String), isFileAt a p = false →
      isFileAt (pats.foldl (fun a pat => (globFS a pat).foldl removeFile a) a) p = false := by
  induction pats with
  | nil => intro a p h; exact h
  | cons q pats ih =>
    intro a p h
    exact ih _ p (isFileAt_foldl_remove_of_false _ a p h)

/-- Helper: after the pattern folds, no file is bound at any path
matching any of the patterns. -/
theorem isFileAt_patterns_clears (pats : List String) :
    ∀ (a : FS) (pat p : String), pat ∈ pats → globMatch pat.data p.data = true →
      isFileAt (pats.foldl (fun a pat => (globFS a pat).foldl removeFile a) a) p = false := by
  induction pats with
  | nil => intro a pat p hmem _; cases hmem
  | cons q pats ih =>
    intro a pat p hmem hmatch
    rcases List.mem_cons.mp hmem with hpq | hp
    · subst hpq
      exact isFileAt_patterns_of_false pats _ p (isFileAt_globPass_clears a pat p hmatch)
    · exact ih _ pat p hp hmatch

/-- Helper: the chapter-file removal loop is the removal fold over the
chapter paths. -/
theorem chapter_fold_eq (fs : FS) (wd : String) (cfs : List String) :
    cfs.foldl (fun a cf => removeFile a (pathJoin wd cf)) fs
      = (chapterPaths wd cfs).foldl removeFile fs := by
  rw [chapterPaths, List.foldl_map]

/-- Helper: after `cleanup_partial_chapters`, no file is bound at any
path the cleaner targets. -/
theorem cleanup_clears (fs : FS) (wd : String) (cfs : List String) (p : String)
    (h : isTarget wd cfs p = true) :
    isFileAt (cleanup_partial_chapters fs wd cfs) p = false := by
  unfold cleanup_partial_chapters
  rw [chapter_fold_eq]
  unfold isTarget at h
  rcases Bool.or_eq_true_iff.mp h with hc | ha
  · have hmem : p ∈ chapterPaths wd cfs := by simpa using hc
    exact isFileAt_patterns_of_false (tempPatterns wd) _ p
      (isFileAt_foldl_remove_mem (chapterPaths wd cfs) fs p hmem)
  · obtain ⟨pat, hpat, hmatch⟩ := List.any_eq_true.mp ha
    exact isFileAt_patterns_clears (tempPatterns wd) _ pat p hpat hmatch

/-- Helper: `cleanDir` holds exactly when no file is bound at any
targeted path. -/
theorem cleanDir_iff_targets (fs : FS) (wd : String) (cfs : List String) :
    cleanDir fs wd cfs = true ↔
      (∀ p, isTarget wd cfs p = true → isFileAt fs p = false) := by
  unfold cleanDir
  rw [List.all_eq_true]
  constructor
  · intro h p ht
    cases hfa : isFileAt fs p with
    | false => rfl
    | true =>
      obtain ⟨size, parsed, hl⟩ := (isFileAt_eq_true_iff fs p).mp hfa
      have := h (p, Entry.file size parsed) (mem_of_lookup_eq_some _ _ _ hl)
      rw [show ((p, Entry.file size parsed).1) = p from rfl] at this
      rw [ht, hfa] at this
      simp at this
  · intro h kv _
    cases ht : isTarget wd cfs kv.1 with
    | false => simp [ht]
    | true => simp [ht, h kv.1 ht]

/-- Helper: the pattern folds are a no-op when no file is bound at any
path matching the patterns. -/
theorem patterns_fold_noop (pats : List String) :
    ∀ (fs : FS),
      (∀ pat ∈ pats, ∀ p, globMatch pat.data p.data = true → isFileAt fs p = false) →
      pats.foldl (fun a pat => (globFS a pat).foldl removeFile a) fs = fs := by
  induction pats with
  | nil => intro fs _; rfl
  | cons q pats ih =>
    intro fs h
    have hq : (globFS fs q).foldl removeFile fs = fs := by
      apply foldl_remove_noop
      intro p hp
      have hmatch : globMatch q.data p.data = true := by
        unfold globFS at hp
        obtain ⟨kv, hkv, hkvp⟩ := List.mem_map.mp hp
        subst hkvp
        exact (List.mem_filter.mp hkv).2
      exact h q (List.mem_cons_self q pats) p hmatch
    rw [List.foldl_cons, hq]
    exact ih fs (fun pat hpat p hm => h pat (List.mem_cons_of_mem q hpat) p hm)

/-- Helper: `cleanup_partial_chapters` is a no-op when no file is bound
at any targeted path. -/
theorem cleanup_noop (fs : FS) (wd : String) (cfs : List String)
    (h : ∀ p, isTarget wd cfs p = true → isFileAt fs p = false) :
    cleanup_partial_chapters fs wd cfs = fs := by
  unfold cleanup_partial_chapters
  rw [chapter_fold_eq]
  have hch : (chapterPaths wd cfs).foldl removeFile fs = fs := by
    apply foldl_remove_noop
    intro p hp
    apply h
    unfold isTarget
    apply Bool.or_eq_true_iff.mpr
    exact Or.inl (by simpa using hp)
  rw [hch]
  apply patterns_fold_noop
  intro pat hpat p hm
  apply h
  unfold isTarget
  apply Bool.or_eq_true_iff.mpr
  exact Or.inr (List.any_eq_true.mpr ⟨pat, hpat, hm⟩)

/-- C5: `cleanup_partial_chapters` is idempotent — running it twice
produces exactly the state of running it once; after one run no file
remains at any listed chapter path or any path matching the transient
patterns (`chapter_list_*.txt`, `*.temp.wav`, `*.concat_list.txt`); and
running it on an already-clean directory changes nothing. -/
theorem cleanup_idempotent (fs : FS) (wd : String) (cfs : List String) :
    cleanup_partial_chapters (cleanup_partial_chapters fs wd cfs) wd cfs
      = cleanup_partial_chapters fs wd cfs ∧
    cleanDir (cleanup_partial_chapters fs wd cfs) wd cfs = true ∧
    (cleanDir fs wd cfs = true → cleanup_partial_chapters fs wd cfs = fs) :=
  ⟨cleanup_noop _ wd cfs (fun p hp => cleanup_clears fs wd cfs p hp),
   (cleanDir_iff_targets _ wd cfs).mpr (fun p hp => cleanup_clears fs wd cfs p hp),
   fun hc => cleanup_noop fs wd cfs ((cleanDir_iff_targets fs wd cfs).mp hc)⟩

/-- Witness for C5: an already-clean directory (one unrelated file) is
recognized as clean and left untouched. -/
theorem cleanup_idempotent_witness :
    cleanDir ⟨[("wd/keep.wav", .file 2 none)]⟩ "wd" ["ch1.wav"] = true ∧
    cleanup_partial_chapters ⟨[("wd/keep.wav", .file 2 none)]⟩ "wd" ["ch1.wav"]
      = ⟨[("wd/keep.wav", .file 2 none)]⟩ :=
  ⟨by decide,
   (cleanup_idempotent ⟨[("wd/keep.wav", .file 2 none)]⟩ "wd" ["ch1.wav"]).2.2 (by decide)⟩
